import Mathlib

/-!
Shallow embedding of the `green_pulse` device state synchronization client
(the `MotorControl` React component) and of the image-analysis retry loop
(`PlantHealth.analyzeImage`).

JavaScript numbers are modelled symbolically as `JsNum` (NaN, ±Infinity, or
a finite rational), because the reconciler only compares and clamps them.
Loosely-typed JSON field values are modelled as `JsVal`; a missing field is
`Option.none`.
-/

namespace GreenPulse

/-- A JavaScript number: NaN, +Infinity, -Infinity, or a finite value
(every finite double is a rational, and the code only compares/clamps). -/
inductive JsNum where
  | nan : JsNum
  | posInf : JsNum
  | negInf : JsNum
  | fin : ℚ → JsNum
deriving DecidableEq, Repr

/-- JavaScript `Math.min` on two arguments: NaN-propagating minimum. -/
def jsMin : JsNum → JsNum → JsNum
  | .nan, _ => .nan
  | _, .nan => .nan
  | .negInf, _ => .negInf
  | _, .negInf => .negInf
  | .posInf, b => b
  | a, .posInf => a
  | .fin a, .fin b => .fin (min a b)

/-- JavaScript `Math.max` on two arguments: NaN-propagating maximum. -/
def jsMax : JsNum → JsNum → JsNum
  | .nan, _ => .nan
  | _, .nan => .nan
  | .posInf, _ => .posInf
  | _, .posInf => .posInf
  | .negInf, b => b
  | a, .negInf => a
  | .fin a, .fin b => .fin (max a b)

/-- A loosely-typed JSON/JS field value as it can appear in a raw payload. -/
inductive JsVal where
  | nullV : JsVal
  | undefV : JsVal
  | boolV : Bool → JsVal
  | numV : JsNum → JsVal
  | strV : String → JsVal
  | otherV : JsVal
deriving DecidableEq, Repr

/-- Model of `RawStateFromServer`: the untrusted payload; `none` = field missing. -/
structure RawState where
  power : Option JsVal := none
  direction : Option JsVal := none
  speed : Option JsVal := none
deriving DecidableEq, Repr

/-- Model of `MotorState`. `speed` is kept as a `JsNum` because the source stores the
raw clamped JS number (which can be NaN if the clamp receives NaN). -/
structure MotorState where
  power : Bool
  dir : Int
  speed : JsNum
deriving DecidableEq, Repr

def POLL_INTERVAL : Nat := 3000
def MAX_BACKOFF : Nat := 30000
def SPEED_DEBOUNCE_MS : Nat := 150

/-- JavaScript `String.prototype.toLowerCase`, modelled as characterwise
lowering (the strings the component compares with are ASCII). -/
def jsToLower (s : String) : String := ⟨s.data.map Char.toLower⟩

/-- The test `typeof v === "string"`, with the string extracted. -/
def asString : Option JsVal → Option String
  | some (.strV s) => some s
  | _ => none

/-- The reconciler `toMotorState(raw, prev?)`, translated clause by clause:
`powerVal = raw.power === true || (typeof raw.power === "string" &&
raw.power.toLowerCase() === "on") || raw.power === "ON"`;
`dirVal = (typeof raw.direction === "string" &&
raw.direction.toLowerCase() === "reverse") ? -1 : 1`;
`speedVal = typeof raw.speed === "number" ?
Math.max(0, Math.min(100, raw.speed)) : (prev?.speed ?? 100)`. -/
def toMotorState (raw : RawState) (prev : Option MotorState) : MotorState :=
  let powerVal : Bool :=
    raw.power == some (.boolV true) ||
    (match asString raw.power with
      | some s => jsToLower s == "on"
      | none => false) ||
    raw.power == some (.strV "ON")
  let dirVal : Int :=
    match asString raw.direction with
    | some s => if jsToLower s = "reverse" then -1 else 1
    | none => 1
  let speedVal : JsNum :=
    match raw.speed with
    | some (.numV n) => jsMax (.fin 0) (jsMin (.fin 100) n)
    | _ => match prev with
      | some p => p.speed
      | none => .fin 100
  { power := powerVal, dir := dirVal, speed := speedVal }

/-- Whether a `speed` lies in the domain [0,100] (in particular is finite). -/
def speedInRange : JsNum → Bool
  | .fin q => decide (0 ≤ q ∧ q ≤ 100)
  | _ => false

/-- Whether the raw payload carries a numeric `speed`
(`typeof raw.speed === "number"`; NaN and ±Infinity are numeric in JS). -/
def rawSpeedNumeric (raw : RawState) : Bool :=
  match raw.speed with
  | some (.numV _) => true
  | _ => false

end GreenPulse

namespace GreenPulse

/-- Clamping a non-NaN JS number with `Math.max(0, Math.min(100, n))`
lands in [0,100]. -/
theorem clamp_inRange (n : JsNum) (hn : n ≠ .nan) :
    speedInRange (jsMax (.fin 0) (jsMin (.fin 100) n)) = true := by
  cases n with
  | nan => exact absurd rfl hn
  | posInf => decide
  | negInf => decide
  | fin q =>
    simp only [jsMin, jsMax, speedInRange, decide_eq_true_eq]
    exact ⟨le_max_left 0 _, max_le (by norm_num) (min_le_left 100 q)⟩

end GreenPulse

namespace GreenPulse

/-- C1 counterexample: the claim asserts the resulting speed lies in [0,100]
even when the raw `speed` is NaN, but `typeof NaN === "number"`, and
`Math.max(0, Math.min(100, NaN))` is NaN, which the code stores as is. -/
theorem toMotorState_nan_speed_escapes :
    speedInRange (toMotorState { speed := some (.numV .nan) } none).speed = false := by
  decide

/-- C1 (amended): `toMotorState` is a total function (it is defined on every
raw payload and optional previous state), and the returned speed lies in
[0,100] whenever the raw `speed` field is not the number NaN (±Infinity
clamp to 100 resp. 0) and any inherited previous speed was in range. -/
theorem toMotorState_total_speed_inRange (raw : RawState) (prev : Option MotorState)
    (hn : raw.speed ≠ some (.numV .nan))
    (hp : ∀ p, prev = some p → speedInRange p.speed = true) :
    speedInRange (toMotorState raw prev).speed = true := by
  unfold toMotorState
  cases hs : raw.speed with
  | some v =>
    cases v with
    | numV n =>
      simp only
      exact clamp_inRange n (fun h => hn (by rw [hs, h]))
    | nullV => cases prev with
      | some p => exact hp p rfl
      | none => rfl
    | undefV => cases prev with
      | some p => exact hp p rfl
      | none => rfl
    | boolV b => cases prev with
      | some p => exact hp p rfl
      | none => rfl
    | strV s => cases prev with
      | some p => exact hp p rfl
      | none => rfl
    | otherV => cases prev with
      | some p => exact hp p rfl
      | none => rfl
  | none => cases prev with
    | some p => exact hp p rfl
    | none => rfl

/-- C1 witness: the amended theorem applied to the payload `{speed: 150}`
with no previous state. -/
theorem toMotorState_total_speed_inRange_witness :
    speedInRange (toMotorState { speed := some (.numV (.fin 150)) } none).speed = true :=
  toMotorState_total_speed_inRange _ none (by decide) (fun p h => by cases h)

end GreenPulse

namespace GreenPulse

/-- C8: the reconciled `power` is true iff the raw `power` value is the
boolean `true` or a string whose lowercase form is `"on"`; every other value,
including a missing field, yields `false` — the previous state is never
consulted for `power`. (The code's third disjunct `raw.power === "ON"` is
subsumed by the case-insensitive comparison.) -/
theorem toMotorState_power_iff (raw : RawState) (prev : Option MotorState) :
    (toMotorState raw prev).power = true ↔
      (raw.power = some (.boolV true) ∨
        ∃ s, raw.power = some (.strV s) ∧ jsToLower s = "on") := by
  cases hp : raw.power with
  | none => simp [toMotorState, asString, hp]
  | some v =>
    cases v with
    | boolV b =>
      cases b <;> simp [toMotorState, asString, hp]
    | strV s =>
      simp only [toMotorState, asString, hp]
      constructor
      · intro h
        rcases Bool.or_eq_true_iff.mp h with h | h
        · rcases Bool.or_eq_true_iff.mp h with h | h
          · simp at h
          · exact Or.inr ⟨s, rfl, by simpa using h⟩
        · refine Or.inr ⟨s, rfl, ?_⟩
          have hs : s = "ON" := by simpa using h
          subst hs; decide
      · rintro (h | ⟨t, ht, hlow⟩)
        · simp at h
        · injection ht with h1
          injection h1 with h2
          subst h2
          apply Bool.or_eq_true_iff.mpr
          exact Or.inl (Bool.or_eq_true_iff.mpr (Or.inr (by simpa using hlow)))
    | nullV => simp [toMotorState, asString, hp]
    | undefV => simp [toMotorState, asString, hp]
    | numV n => simp [toMotorState, asString, hp]
    | otherV => simp [toMotorState, asString, hp]

end GreenPulse

namespace GreenPulse

/-- C9: when the raw `speed` is absent or non-numeric, the reconciled speed
is the previous state's speed, or the fixed default 100 when there is no
previous state. -/
theorem toMotorState_speed_inherits (raw : RawState) (prev : Option MotorState)
    (h : rawSpeedNumeric raw = false) :
    (toMotorState raw prev).speed = (prev.map MotorState.speed).getD (.fin 100) := by
  unfold toMotorState rawSpeedNumeric at *
  cases hs : raw.speed with
  | some v =>
    cases v with
    | numV n => rw [hs] at h; simp at h
    | nullV => cases prev <;> rfl
    | undefV => cases prev <;> rfl
    | boolV b => cases prev <;> rfl
    | strV s => cases prev <;> rfl
    | otherV => cases prev <;> rfl
  | none => cases prev <;> rfl

/-- C9 witness: the payload `{speed: "fast"}` (non-numeric) against a
previous state whose speed is 42 inherits speed 42. -/
theorem toMotorState_speed_inherits_witness :
    (toMotorState { speed := some (.strV "fast") } (some ⟨true, 1, .fin 42⟩)).speed
      = .fin 42 :=
  toMotorState_speed_inherits { speed := some (.strV "fast") }
    (some ⟨true, 1, .fin 42⟩) (by decide)

end GreenPulse

namespace GreenPulse

/-- The body of an HTTP response as `res.json()` sees it: `parsed r` when the
body parses to a JSON object (modelled as a `RawState`; `res.json()`
rejecting, i.e. an unparseable body, is `unparseable`). A parseable JSON
`null` behaves exactly like `unparseable` downstream (fetchJson returns
null either way), so it is also covered by `unparseable`. -/
inductive Body where
  | parsed : RawState → Body
  | unparseable : Body
deriving DecidableEq, Repr

/-- What the network does to one `fetch` call. -/
inductive HttpOutcome where
  /-- Case where `fetch` rejects with a non-abort error (network unreachable, …). -/
  | netFail : String → HttpOutcome
  /-- Case where `fetch` rejects with an `AbortError` (deliberate cancellation). -/
  | aborted : HttpOutcome
  /-- A response arrives: `ok = res.ok` (2xx), status line data, body text
  read for the error message, and the body parse outcome. -/
  | response : Bool → Nat → String → String → Body → HttpOutcome
deriving DecidableEq, Repr

/-- The error message thrown on a non-ok response:
```${res.status} ${res.statusText} ${text}`.trim()``. -/
def statusError (status : Nat) (statusText text : String) : String :=
  (toString status ++ " " ++ statusText ++ " " ++ text).trim

/-- Result of `fetchJson`: returns the parsed body (`none` = JS `null`),
throws a non-abort error, or throws an `AbortError`. -/
inductive FetchResult where
  | ok : Option RawState → FetchResult
  | thrown : String → FetchResult
  | abortError : FetchResult
deriving DecidableEq, Repr

/-- Model of `fetchJson`: propagates fetch rejections; throws
`` `${status} ${statusText} ${text}`.trim() `` on a non-ok response; on an ok
response returns `res.json()`, or `null` when the body does not parse. -/
def fetchJson : HttpOutcome → FetchResult
  | .netFail msg => .thrown msg
  | .aborted => .abortError
  | .response ok status statusText text body =>
      if ok then
        .ok (match body with
          | .parsed r => some r
          | .unparseable => none)
      else
        .thrown (statusError status statusText text)

/-- The `MotorControl` component's shared mutable state: the React state
cells (`state`, `loading`, `error`, `connected`, `lastSeen`) plus the
refs `backoffRef` and `mountedRef`. `lastSeen` is a timestamp in
abstract time units. -/
structure ComponentState where
  motor : MotorState
  loading : Bool
  error : Option String
  connected : Bool
  lastSeen : Option Nat
  backoff : Nat
  mounted : Bool
deriving DecidableEq, Repr

/-- The component's initial state (`useState` initialisers, refs at mount). -/
def initialState : ComponentState :=
  { motor := { power := false, dir := 1, speed := .fin 100 }
    loading := false
    error := none
    connected := false
    lastSeen := none
    backoff := 0
    mounted := true }

/-- One run of `pollStateOnce` from the `await fetchJson` onward, given the
moment `now` at which the handler runs and the outcome `o` of the request.
Returns the state after the cycle and the delay (ms) passed to
`setTimeout` for the next cycle — `none` when the cycle does not
reschedule. The abort of any previous in-flight request (lines before the
`try`) touches none of this state and is modelled where it acts, as an
`HttpOutcome.aborted` delivered to that previous cycle. -/
def pollStateOnce (s : ComponentState) (now : Nat) (o : HttpOutcome) :
    ComponentState × Option Nat :=
  match fetchJson o with
  | .ok raw =>
      -- try block: early return if unmounted (finally then also returns)
      if !s.mounted then (s, none)
      else
        let s1 := match raw with
          | some rw => { s with motor := toMotorState rw (some s.motor) }
          | none => s
        let s2 := { s1 with connected := true, lastSeen := some now,
                            error := none, backoff := 0 }
        -- finally: next = backoffRef.current || POLL_INTERVAL
        (s2, some (if s2.backoff = 0 then POLL_INTERVAL else s2.backoff))
  | .abortError =>
      -- catch: AbortError is ignored; finally still runs
      if !s.mounted then (s, none)
      else (s, some (if s.backoff = 0 then POLL_INTERVAL else s.backoff))
  | .thrown _ =>
      -- catch: failure handling runs before the finally's mounted check
      let s1 := { s with connected := false,
                         error := some "Failed to connect to ESP32",
                         backoff := if s.backoff = 0 then 1000
                                    else min (s.backoff * 2) MAX_BACKOFF }
      if !s1.mounted then (s1, none)
      else (s1, some (if s1.backoff = 0 then POLL_INTERVAL else s1.backoff))

/-- Model of `postCommand` from `setLoading(true)` onward, given the moment `now` and
the outcome `o` of the POST (no abort signal is attached to command posts).
Returns the state on completion and `Except.error msg` when the command
rethrows to its caller. -/
def postCommand (s : ComponentState) (now : Nat) (o : HttpOutcome) :
    ComponentState × Except String (Option RawState) :=
  let s0 := { s with loading := true, error := none }
  match fetchJson o with
  | .ok data =>
      let s1 := match data with
        | some rw => { s0 with motor := toMotorState rw (some s0.motor) }
        | none => s0
      let s2 := { s1 with connected := true, lastSeen := some now }
      -- finally: if (mountedRef.current) setLoading(false)
      let s3 := if s2.mounted then { s2 with loading := false } else s2
      (s3, .ok data)
  | .thrown msg =>
      let m := if msg = "" then "ESP32 not reachable" else msg
      let s1 := { s0 with connected := false, error := some m }
      let s2 := if s1.mounted then { s1 with loading := false } else s1
      -- `throw err` rethrows the original error
      (s2, .error msg)
  | .abortError =>
      -- no AbortError guard in postCommand's catch: treated as any error
      let s1 := { s0 with connected := false, error := some "AbortError" }
      let s2 := if s1.mounted then { s1 with loading := false } else s1
      (s2, .error "AbortError")

end GreenPulse

namespace GreenPulse

/-- Outcomes the spec's failure transition is about: the fetch rejects with a
non-abort error, or a response arrives with a non-2xx status. -/
def isNetworkOrHttpFailure : HttpOutcome → Bool
  | .netFail _ => true
  | .aborted => false
  | .response ok _ _ _ _ => !ok

/-- C3 counterexample: a 2xx response whose body fails to parse does NOT take
the failure transition. `res.json()`'s rejection is swallowed inside
`fetchJson` (which returns `null`), so `pollStateOnce` runs its success
branch: `connected` stays true, no `lastError`, backoff reset, next cycle
after the base interval — the claim predicts `connected=false`, a set
`lastError` and a doubled backoff. -/
theorem pollStateOnce_parseFailure_is_success :
    (pollStateOnce { initialState with connected := true } 7
        (.response true 200 "OK" "not json" .unparseable)) =
      ({ initialState with connected := true, lastSeen := some 7 }, some 3000) := by
  decide

/-- C3 (amended): on a network failure or a non-2xx response (and only
those; a 2xx body that fails to parse is treated as a bodyless success),
the engine sets `connected=false`, sets `lastError`, moves the backoff to
`min(2·b, 30000)` (1000 on the first failure) and schedules the next cycle
after the new backoff delay. -/
theorem pollStateOnce_failure_transition (s : ComponentState) (now : Nat)
    (o : HttpOutcome) (hm : s.mounted = true)
    (ho : isNetworkOrHttpFailure o = true) :
    pollStateOnce s now o =
      (let b := if s.backoff = 0 then 1000 else min (s.backoff * 2) MAX_BACKOFF
       ({ s with connected := false, error := some "Failed to connect to ESP32",
                 backoff := b }, some b)) := by
  cases o with
  | netFail msg =>
    simp [pollStateOnce, fetchJson, hm]
    intro h
    unfold MAX_BACKOFF at h
    split at h <;> omega
  | aborted => simp [isNetworkOrHttpFailure] at ho
  | response ok status stxt txt body =>
    cases ok with
    | false =>
      simp [pollStateOnce, fetchJson, hm]
      intro h
      unfold MAX_BACKOFF at h
      split at h <;> omega
    | true => simp [isNetworkOrHttpFailure] at ho

/-- C3 witness: first failure (network down) from the initial state: backoff
becomes 1000 and the next cycle is scheduled after 1000ms. -/
theorem pollStateOnce_failure_transition_witness :
    pollStateOnce initialState 0 (.netFail "ECONNREFUSED") =
      ({ initialState with connected := false,
                           error := some "Failed to connect to ESP32",
                           backoff := 1000 }, some 1000) := by
  rw [pollStateOnce_failure_transition initialState 0 (.netFail "ECONNREFUSED") rfl rfl]
  rfl

end GreenPulse

namespace GreenPulse

/-- C2 counterexample: an aborted cycle on a still-mounted engine DOES
reschedule. The `AbortError` is ignored by the catch, but the `finally`
block still runs and, since the component is mounted, schedules the next
poll (here after `backoff || POLL_INTERVAL` = 3000ms) — contradicting the
claim that an aborted cycle performs no rescheduling. -/
theorem pollStateOnce_abort_reschedules :
    (pollStateOnce initialState 0 .aborted).2 = some 3000 := by
  decide

/-- C2 (amended): an aborted poll cycle never mutates the shared state
(`MotorState`, `connected`, `lastError`, `lastSeen`, backoff are all
unchanged) and never takes the failure/backoff path; after teardown it does
not reschedule, but while the component is still mounted its `finally`
block does schedule the next poll after `backoff || POLL_INTERVAL`. -/
theorem pollStateOnce_abort (s : ComponentState) (now : Nat) :
    pollStateOnce s now .aborted =
      (s, if s.mounted then some (if s.backoff = 0 then POLL_INTERVAL else s.backoff)
          else none) := by
  cases hm : s.mounted <;> simp [pollStateOnce, fetchJson, hm]

/-- One failed poll cycle (the state left by `pollStateOnce` on a network
failure). -/
def failStep (s : ComponentState) : ComponentState :=
  (pollStateOnce s 0 (.netFail "down")).1

/-- The backoff delay after `n` consecutive failed poll cycles from the
initial state. -/
def backoffAfter (n : Nat) : Nat := (failStep^[n] initialState).backoff

theorem failStep_backoff (s : ComponentState) :
    (failStep s).backoff =
      if s.backoff = 0 then 1000 else min (s.backoff * 2) MAX_BACKOFF := by
  cases hm : s.mounted <;> simp [failStep, pollStateOnce, fetchJson, hm]

theorem failStep_mounted (s : ComponentState) :
    (failStep s).mounted = s.mounted := by
  cases hm : s.mounted <;> simp [failStep, pollStateOnce, fetchJson, hm]

theorem failStep_iterate_mounted (n : Nat) :
    (failStep^[n] initialState).mounted = true := by
  induction n with
  | zero => rfl
  | succ m ih => rw [Function.iterate_succ_apply', failStep_mounted, ih]

theorem backoffAfter_succ (n : Nat) :
    backoffAfter (n + 1) =
      if backoffAfter n = 0 then 1000 else min (backoffAfter n * 2) MAX_BACKOFF := by
  unfold backoffAfter
  rw [Function.iterate_succ_apply', failStep_backoff]

theorem backoffAfter_formula (n : Nat) (hn : 1 ≤ n) :
    backoffAfter n = min (1000 * 2 ^ (n - 1)) 30000 := by
  induction n with
  | zero => omega
  | succ m ih =>
    rw [backoffAfter_succ]
    rcases Nat.eq_zero_or_pos m with h0 | hpos
    · subst h0
      norm_num [show backoffAfter 0 = 0 from rfl, MAX_BACKOFF]
    · rw [ih hpos]
      have hm1 : m - 1 + 1 = m := Nat.succ_pred_eq_of_pos hpos
      have hpow := pow_succ (2 : Nat) (m - 1)
      rw [hm1] at hpow
      have hx : 1 ≤ (2 : Nat) ^ (m - 1) := Nat.one_le_two_pow
      unfold MAX_BACKOFF
      simp only [Nat.add_sub_cancel]
      rw [hpow]
      split <;> omega

/-- Any 2xx response is the success transition: backoff reset to 0,
`connected` set, `lastError` cleared, `lastSeen` refreshed, next cycle after
the base interval. -/
theorem pollStateOnce_success (s : ComponentState) (now : Nat)
    (status : Nat) (stxt txt : String) (body : Body) (hm : s.mounted = true) :
    (pollStateOnce s now (.response true status stxt txt body)).1.backoff = 0 ∧
    (pollStateOnce s now (.response true status stxt txt body)).1.connected = true ∧
    (pollStateOnce s now (.response true status stxt txt body)).1.error = none ∧
    (pollStateOnce s now (.response true status stxt txt body)).1.lastSeen = some now ∧
    (pollStateOnce s now (.response true status stxt txt body)).2 = some POLL_INTERVAL := by
  cases body <;> simp [pollStateOnce, fetchJson, hm, POLL_INTERVAL]

/-- C5: after `N ≥ 1` consecutive poll failures starting from the initial
state, the backoff delay stored by the engine equals
`min(1000 * 2^(N-1), 30000)`; and a subsequent successful poll resets the
backoff to 0 and schedules the next cycle after the 3000ms base interval. -/
theorem backoff_formula (n : Nat) (hn : 1 ≤ n) :
    (backoffAfter n = min (1000 * 2 ^ (n - 1)) 30000) ∧
      (∀ now raw,
        (pollStateOnce (failStep^[n] initialState) now
            (.response true 200 "OK" "" (.parsed raw))).1.backoff = 0 ∧
        (pollStateOnce (failStep^[n] initialState) now
            (.response true 200 "OK" "" (.parsed raw))).2 = some 3000) := by
  refine ⟨backoffAfter_formula n hn, fun now raw => ?_⟩
  have h := pollStateOnce_success (failStep^[n] initialState) now 200 "OK" ""
    (.parsed raw) (failStep_iterate_mounted n)
  exact ⟨h.1, h.2.2.2.2⟩

/-- C5 witness: after 6 consecutive failures the backoff sits at the 30000ms
ceiling (`min(1000·2⁵, 30000)`), and a success at that point resets it to 0
with the next cycle after 3000ms. -/
theorem backoff_formula_witness :
    (backoffAfter 6 = min (1000 * 2 ^ (6 - 1)) 30000) ∧
      ((pollStateOnce (failStep^[6] initialState) 1
          (.response true 200 "OK" "" (.parsed {}))).1.backoff = 0 ∧
       (pollStateOnce (failStep^[6] initialState) 1
          (.response true 200 "OK" "" (.parsed {}))).2 = some 3000) :=
  ⟨(backoff_formula 6 (by norm_num)).1, (backoff_formula 6 (by norm_num)).2 1 {}⟩

end GreenPulse

namespace GreenPulse

/-- C6 counterexample: after teardown (`mountedRef.current = false`), a
late-arriving NON-abort failure is not dropped: the catch block runs before
any mounted check, so it still flips `connected` to false, sets `lastError`
and advances the backoff ref — the claim says every late response is
dropped without state mutation. -/
theorem pollStateOnce_late_failure_mutates :
    (pollStateOnce { initialState with mounted := false, connected := true } 0
        (.netFail "boom")).1 =
      { initialState with mounted := false, connected := false,
                          error := some "Failed to connect to ESP32",
                          backoff := 1000 } := by
  decide

/-- C6 (amended): after teardown, a late-arriving success (and an abort) is
dropped with no state mutation and no rescheduling; a late-arriving
non-abort failure, however, still runs the failure handler — setting
`connected=false`, `lastError`, and advancing the backoff — though it too
performs no rescheduling. -/
theorem pollStateOnce_after_teardown (s : ComponentState) (now : Nat)
    (h : s.mounted = false) :
    (∀ status stxt txt b,
        pollStateOnce s now (.response true status stxt txt b) = (s, none)) ∧
    pollStateOnce s now .aborted = (s, none) ∧
    (∀ o, isNetworkOrHttpFailure o = true →
        pollStateOnce s now o =
          ({ s with connected := false, error := some "Failed to connect to ESP32",
                    backoff := if s.backoff = 0 then 1000
                               else min (s.backoff * 2) MAX_BACKOFF }, none)) := by
  refine ⟨fun status stxt txt b => ?_, ?_, fun o ho => ?_⟩
  · cases b <;> simp [pollStateOnce, fetchJson, h]
  · simp [pollStateOnce, fetchJson, h]
  · cases o with
    | netFail msg => simp [pollStateOnce, fetchJson, h]
    | aborted => simp [isNetworkOrHttpFailure] at ho
    | response ok status stxt txt body =>
      cases ok with
      | false => simp [pollStateOnce, fetchJson, h]
      | true => simp [isNetworkOrHttpFailure] at ho

/-- C6 witness: a late success after teardown is dropped entirely. -/
theorem pollStateOnce_after_teardown_witness :
    pollStateOnce { initialState with mounted := false } 9
        (.response true 200 "OK" "" (.parsed { power := some (.boolV true) })) =
      ({ initialState with mounted := false }, none) :=
  (pollStateOnce_after_teardown { initialState with mounted := false } 9 rfl).1
    200 "OK" "" (.parsed { power := some (.boolV true) })

end GreenPulse

namespace GreenPulse

/-- C4: when a dispatched command fails (network failure or non-2xx
response, e.g. a 500) on a mounted component, `postCommand` sets
`lastError`, sets `connected=false`, leaves the optimistic local
`MotorState` untouched, rethrows to its caller, and — on failure as on
success — leaves the busy flag (`loading`) false on completion. -/
theorem postCommand_failure (s : ComponentState) (now : Nat) (o : HttpOutcome)
    (hm : s.mounted = true) :
    (isNetworkOrHttpFailure o = true →
      ((postCommand s now o).1.error.isSome = true ∧
       (postCommand s now o).1.connected = false ∧
       (postCommand s now o).1.motor = s.motor ∧
       (postCommand s now o).1.loading = false ∧
       ∃ m, (postCommand s now o).2 = .error m)) ∧
    (∀ status stxt txt b,
      (postCommand s now (.response true status stxt txt b)).1.loading = false) := by
  constructor
  · intro ho
    cases o with
    | netFail msg => simp [postCommand, fetchJson, hm]
    | aborted => simp [isNetworkOrHttpFailure] at ho
    | response ok status stxt txt body =>
      cases ok with
      | false => simp [postCommand, fetchJson, hm]
      | true => simp [isNetworkOrHttpFailure] at ho
  · intro status stxt txt b
    cases b <;> simp [postCommand, fetchJson, hm]

/-- C4 witness: a 500 response on the initial state — error recorded,
disconnected, motor state untouched, busy back to false. -/
theorem postCommand_failure_witness :
    ((postCommand initialState 0
        (.response false 500 "Internal Server Error" "" .unparseable)).1.error.isSome
          = true ∧
     (postCommand initialState 0
        (.response false 500 "Internal Server Error" "" .unparseable)).1.connected
          = false ∧
     (postCommand initialState 0
        (.response false 500 "Internal Server Error" "" .unparseable)).1.motor
          = initialState.motor ∧
     (postCommand initialState 0
        (.response false 500 "Internal Server Error" "" .unparseable)).1.loading
          = false ∧
     ∃ m, (postCommand initialState 0
        (.response false 500 "Internal Server Error" "" .unparseable)).2 = .error m) :=
  (postCommand_failure initialState 0
      (.response false 500 "Internal Server Error" "" .unparseable) rfl).1 rfl

end GreenPulse

namespace GreenPulse

/-- The debounce gate of `handleSpeedChange`, run over a timeline of slider
input events `(time, value)` in increasing time order. `pending` models
`speedTimerRef`: the armed timer's fire deadline and the value it captured.
Before an input at time `t` is handled, an armed timer whose deadline has
already passed fires and posts its value; the input then clears any armed
timer (`clearTimeout`) and arms a new one for `t + SPEED_DEBOUNCE_MS`
capturing the new value (`setTimeout`). After the last event the remaining
timer fires. Returns the values posted to `/api/speed`, in order. -/
def runDebounce (pending : Option (Nat × Nat)) : List (Nat × Nat) → List Nat
  | [] =>
    (match pending with
     | some (_, pv) => [pv]
     | none => [])
  | (t, v) :: rest =>
    match pending with
    | some (d, pv) =>
        if d ≤ t then pv :: runDebounce (some (t + SPEED_DEBOUNCE_MS, v)) rest
        else runDebounce (some (t + SPEED_DEBOUNCE_MS, v)) rest
    | none => runDebounce (some (t + SPEED_DEBOUNCE_MS, v)) rest

/-- Two consecutive slider events belong to one burst: time advances and the
gap is below the 150ms debounce window. -/
def inBurst (a b : Nat × Nat) : Prop :=
  a.1 < b.1 ∧ b.1 < a.1 + SPEED_DEBOUNCE_MS

instance (a b : Nat × Nat) : Decidable (inBurst a b) :=
  inferInstanceAs (Decidable (a.1 < b.1 ∧ b.1 < a.1 + SPEED_DEBOUNCE_MS))

theorem runDebounce_armed_burst (rest : List (Nat × Nat)) :
    ∀ t v, List.Chain' inBurst ((t, v) :: rest) →
      runDebounce (some (t + SPEED_DEBOUNCE_MS, v)) rest =
        [(((t, v) :: rest).getLastD (0, 0)).2] := by
  induction rest with
  | nil => intro t v _; rfl
  | cons e rest ih =>
    intro t v hc
    obtain ⟨t', v'⟩ := e
    have hgap : inBurst (t, v) (t', v') := (List.chain'_cons.mp hc).1
    have htail : List.Chain' inBurst ((t', v') :: rest) := (List.chain'_cons.mp hc).2
    have hlt : ¬ (t + SPEED_DEBOUNCE_MS ≤ t') := by
      have := hgap.2
      omega
    simp only [runDebounce, if_neg hlt]
    rw [ih t' v' htail]
    simp [List.getLastD_cons]

/-- C7: a burst of rapid sequential `onInput` calls, each arriving less than
150ms after the one before, dispatches exactly one `/api/speed` command,
and it carries only the final value of the burst (each call having cleared
and re-armed the pending timer). -/
theorem debounce_single_dispatch (t v : Nat) (rest : List (Nat × Nat))
    (hc : List.Chain' inBurst ((t, v) :: rest)) :
    runDebounce none ((t, v) :: rest) = [(((t, v) :: rest).getLastD (0, 0)).2] := by
  show runDebounce (some (t + SPEED_DEBOUNCE_MS, v)) rest = _
  exact runDebounce_armed_burst rest t v hc

/-- C7 witness: the spec's scenario — slider moved to 10, 40, then 75 within
the window (at 0ms, 50ms, 100ms) → exactly one command, `{speed: 75}`. -/
theorem debounce_single_dispatch_witness :
    runDebounce none [(0, 10), (50, 40), (100, 75)] = [75] := by
  have h := debounce_single_dispatch 0 10 [(50, 40), (100, 75)]
    (by norm_num [List.chain'_cons, List.chain'_singleton, inBurst, SPEED_DEBOUNCE_MS])
  simpa using h

end GreenPulse

namespace GreenPulse

/-- What one attempt of the `analyzeImage` retry loop observes. -/
inductive AttemptResult where
  /-- Case `response.ok`: carries the extracted `candidates[0].content.parts[0].text`
  (`none` when the path is missing). -/
  | okBody : Option String → AttemptResult
  /-- A 429 (throttling) response. -/
  | status429 : AttemptResult
  /-- A non-ok, non-429 response; carries `err.error?.message`
  (`none` when absent). -/
  | httpError : Option String → AttemptResult
  /-- The fetch itself rejected; carries the error's message. -/
  | transport : String → AttemptResult
deriving DecidableEq, Repr

/-- How the retry loop exits: the analysis text on success, or the thrown
message on failure; in both cases the number of requests issued and the
list of waits (ms) performed. -/
inductive LoopExit where
  | success : String → Nat → List Nat → LoopExit
  | failed : String → Nat → List Nat → LoopExit
deriving DecidableEq, Repr

def LoopExit.attemptsOf : LoopExit → Nat
  | .success _ a _ => a
  | .failed _ a _ => a

def LoopExit.waitsOf : LoopExit → List Nat
  | .success _ _ w => w
  | .failed _ _ w => w

/-- On success the stored analysis text is the truthy candidate text. -/
def LoopExit.okText : LoopExit → Prop
  | .success t _ _ => t ≠ ""
  | .failed _ _ _ => True

/-- The `for (let i = 0; i < 5; i++)` retry loop of `analyzeImage`. `fuel`
is `5 - i`. A caught error (`catch (fetchError)`) rethrows when `i === 4`
(`fuel = 1`, i.e. recursion blocked at `fuel' = 0`) and otherwise waits
`delay` and doubles it; a 429 always waits and doubles, even on the last
iteration; running out of iterations throws the multiple-retries message. -/
def geminiLoop (att : Nat → AttemptResult) :
    Nat → Nat → Nat → Nat → List Nat → LoopExit
  | 0, _, _, attempts, waits =>
      .failed "API request failed after multiple retries." attempts waits
  | fuel + 1, i, delay, attempts, waits =>
    match att i with
    | .okBody text =>
      match text with
      | some t =>
          if t = "" then
            -- `if (text)` is falsy: `throw new Error("Invalid response ...")`
            if fuel = 0 then
              .failed "Invalid response structure from API." (attempts + 1) waits
            else
              geminiLoop att fuel (i + 1) (delay * 2) (attempts + 1) (waits ++ [delay])
          else .success t (attempts + 1) waits
      | none =>
          if fuel = 0 then
            .failed "Invalid response structure from API." (attempts + 1) waits
          else
            geminiLoop att fuel (i + 1) (delay * 2) (attempts + 1) (waits ++ [delay])
    | .status429 =>
        geminiLoop att fuel (i + 1) (delay * 2) (attempts + 1) (waits ++ [delay])
    | .httpError m =>
        let msg := match m with
          | some s => if s = "" then "An error occurred during analysis." else s
          | none => "An error occurred during analysis."
        if fuel = 0 then .failed msg (attempts + 1) waits
        else geminiLoop att fuel (i + 1) (delay * 2) (attempts + 1) (waits ++ [delay])
    | .transport msg =>
        if fuel = 0 then .failed msg (attempts + 1) waits
        else geminiLoop att fuel (i + 1) (delay * 2) (attempts + 1) (waits ++ [delay])

/-- The component state `analyzeImage` leaves behind, plus the request count
and waits performed. -/
structure AnalyzeResult where
  analysis : String
  error : String
  loading : Bool
  attempts : Nat
  waits : List Nat
deriving DecidableEq, Repr

/-- Model of `analyzeImage` from `setLoading(true)` onward: runs the retry loop with
`delay = 1000` and surfaces either the analysis (success path: `setAnalysis`,
`setLoading(false)`) or the outer catch's error message
(`err.message || "Failed to analyze image. Please try again."`,
`setLoading(false)`). -/
def analyzeImage (att : Nat → AttemptResult) : AnalyzeResult :=
  match geminiLoop att 5 0 1000 0 [] with
  | .success t a w =>
      { analysis := t, error := "", loading := false, attempts := a, waits := w }
  | .failed m a w =>
      { analysis := ""
        error := if m = "" then "Failed to analyze image. Please try again." else m
        loading := false, attempts := a, waits := w }

/-- The canonical doubling wait schedule: `[1000, 2000, 4000, …]`. -/
def wpat (m : Nat) : List Nat := (List.range m).map (fun k => 1000 * 2 ^ k)

theorem wpat_succ (m : Nat) : wpat (m + 1) = wpat m ++ [1000 * 2 ^ m] := by
  simp [wpat, List.range_succ]

theorem geminiLoop_spec (att : Nat → AttemptResult) :
    ∀ fuel i a m,
      (geminiLoop att fuel i (1000 * 2 ^ m) a (wpat m)).attemptsOf ≤ a + fuel ∧
      (∃ m', m' ≤ m + fuel ∧
        (geminiLoop att fuel i (1000 * 2 ^ m) a (wpat m)).waitsOf = wpat m') ∧
      (geminiLoop att fuel i (1000 * 2 ^ m) a (wpat m)).okText := by
  intro fuel
  induction fuel with
  | zero =>
    intro i a m
    exact ⟨Nat.le_refl _, ⟨m, Nat.le_refl _, rfl⟩, trivial⟩
  | succ f ih =>
    intro i a m
    have hstep : 1000 * 2 ^ m * 2 = 1000 * 2 ^ (m + 1) := by
      rw [pow_succ, Nat.mul_assoc]
    have hrec := ih (i + 1) (a + 1) (m + 1)
    cases hatt : att i with
    | okBody text =>
      cases text with
      | some t =>
        by_cases ht : t = ""
        · subst ht
          by_cases hf : f = 0
          · subst hf
            simp only [geminiLoop, hatt, if_pos rfl, if_true, LoopExit.attemptsOf,
              LoopExit.waitsOf, LoopExit.okText]
            exact ⟨by omega, ⟨m, by omega, rfl⟩, trivial⟩
          · simp only [geminiLoop, hatt, if_pos rfl, if_neg hf]
            rw [hstep, ← wpat_succ]
            refine ⟨le_trans hrec.1 (by omega), ?_, hrec.2.2⟩
            obtain ⟨m', hm', hw⟩ := hrec.2.1
            exact ⟨m', by omega, hw⟩
        · simp only [geminiLoop, hatt, if_neg ht, LoopExit.attemptsOf,
            LoopExit.waitsOf, LoopExit.okText]
          exact ⟨by omega, ⟨m, by omega, rfl⟩, ht⟩
      | none =>
        by_cases hf : f = 0
        · subst hf
          simp only [geminiLoop, hatt, if_pos rfl, if_true, LoopExit.attemptsOf,
            LoopExit.waitsOf, LoopExit.okText]
          exact ⟨by omega, ⟨m, by omega, rfl⟩, trivial⟩
        · simp only [geminiLoop, hatt, if_neg hf]
          rw [hstep, ← wpat_succ]
          refine ⟨le_trans hrec.1 (by omega), ?_, hrec.2.2⟩
          obtain ⟨m', hm', hw⟩ := hrec.2.1
          exact ⟨m', by omega, hw⟩
    | status429 =>
      simp only [geminiLoop, hatt]
      rw [hstep, ← wpat_succ]
      refine ⟨le_trans hrec.1 (by omega), ?_, hrec.2.2⟩
      obtain ⟨m', hm', hw⟩ := hrec.2.1
      exact ⟨m', by omega, hw⟩
    | httpError msg =>
      by_cases hf : f = 0
      · subst hf
        simp only [geminiLoop, hatt, if_pos rfl, if_true, LoopExit.attemptsOf,
          LoopExit.waitsOf, LoopExit.okText]
        exact ⟨by omega, ⟨m, by omega, rfl⟩, trivial⟩
      · simp only [geminiLoop, hatt, if_neg hf]
        rw [hstep, ← wpat_succ]
        refine ⟨le_trans hrec.1 (by omega), ?_, hrec.2.2⟩
        obtain ⟨m', hm', hw⟩ := hrec.2.1
        exact ⟨m', by omega, hw⟩
    | transport msg =>
      by_cases hf : f = 0
      · subst hf
        simp only [geminiLoop, hatt, if_pos rfl, if_true, LoopExit.attemptsOf,
          LoopExit.waitsOf, LoopExit.okText]
        exact ⟨by omega, ⟨m, by omega, rfl⟩, trivial⟩
      · simp only [geminiLoop, hatt, if_neg hf]
        rw [hstep, ← wpat_succ]
        refine ⟨le_trans hrec.1 (by omega), ?_, hrec.2.2⟩
        obtain ⟨m', hm', hw⟩ := hrec.2.1
        exact ⟨m', by omega, hw⟩

/-- C10: for every behaviour of the network, `analyzeImage` terminates
after at most 5 request attempts, its waits follow the doubling schedule
starting at 1000ms, and on completion the loading flag is cleared and
either an analysis or an error message has been surfaced. -/
theorem analyzeImage_bounded (att : Nat → AttemptResult) :
    (analyzeImage att).attempts ≤ 5 ∧
    (analyzeImage att).loading = false ∧
    ((analyzeImage att).analysis ≠ "" ∨ (analyzeImage att).error ≠ "") ∧
    (∃ m, m ≤ 5 ∧ (analyzeImage att).waits = wpat m) := by
  have h := geminiLoop_spec att 5 0 0 0
  simp only [pow_zero, Nat.mul_one] at h
  have hw0 : wpat 0 = [] := rfl
  rw [hw0] at h
  rcases he : geminiLoop att 5 0 1000 0 [] with t | msg
  case success a w =>
    rw [he] at h
    simp only [LoopExit.attemptsOf, LoopExit.waitsOf, LoopExit.okText] at h
    simp only [analyzeImage, he]
    refine ⟨by omega, trivial, Or.inl h.2.2, ?_⟩
    obtain ⟨m', hm', hweq⟩ := h.2.1
    exact ⟨m', by omega, hweq⟩
  case failed a w =>
    rw [he] at h
    simp only [LoopExit.attemptsOf, LoopExit.waitsOf, LoopExit.okText] at h
    simp only [analyzeImage, he]
    refine ⟨by omega, trivial, Or.inr ?_, ?_⟩
    · by_cases hmsg : msg = "" <;> simp [hmsg]
    · obtain ⟨m', hm', hweq⟩ := h.2.1
      exact ⟨m', by omega, hweq⟩

end GreenPulse
